import Mathlib

/-!
Verification of the logging/archival module (`src/lib/logging.ts`).

The module serializes access/audit log records, derives AWS Signature V4
signing material, and uploads the record to an S3-compatible store with a
console fallback.  We embed the module shallowly: strings stay `String`,
bytes are `List Nat` (each `< 256`), the network and clock are oracle
parameters, and the observable effects (console writes, the HTTP PUT) are
an explicit event trace.
-/

namespace Logging

/-! ## Bytes and 32-bit words -/

/-- Truncate to a 32-bit word. -/
def w32 (n : Nat) : Nat := n % 2 ^ 32

/-- 32-bit rotate right. -/
def rotr (k x : Nat) : Nat :=
  w32 (x / 2 ^ k + x % 2 ^ k * 2 ^ (32 - k))

/-- Logical shift right. -/
def shr (k x : Nat) : Nat := x / 2 ^ k

/-- Bitwise exclusive or (on `Nat`). -/
def bxor (a b : Nat) : Nat := Nat.xor a b

/-- Bitwise and. -/
def band (a b : Nat) : Nat := Nat.land a b

/-- Bitwise complement within 32 bits. -/
def bnot32 (a : Nat) : Nat := 2 ^ 32 - 1 - a % 2 ^ 32

/-! ## SHA-256 (as implemented by `crypto.createHash('sha256')`) -/

/-- SHA-256 round constants. -/
def K256 : List Nat :=
  [1116352408, 1899447441, 3049323471, 3921009573, 961987163,
   1508970993, 2453635748, 2870763221, 3624381080, 310598401,
   607225278, 1426881987, 1925078388, 2162078206, 2614888103,
   3248222580, 3835390401, 4022224774, 264347078, 604807628,
   770255983, 1249150122, 1555081692, 1996064986, 2554220882,
   2821834349, 2952996808, 3210313671, 3336571891, 3584528711,
   113926993, 338241895, 666307205, 773529912, 1294757372,
   1396182291, 1695183700, 1986661051, 2177026350, 2456956037,
   2730485921, 2820302411, 3259730800, 3345764771, 3516065817,
   3600352804, 4094571909, 275423344, 430227734, 506948616,
   659060556, 883997877, 958139571, 1322822218, 1537002063,
   1747873779, 1955562222, 2024104815, 2227730452, 2361852424,
   2428436474, 2756734187, 3204031479, 3329325298]

/-- The eight 32-bit words of a SHA-256 chaining state. -/
structure Hash8 where
  a : Nat
  b : Nat
  c : Nat
  d : Nat
  e : Nat
  f : Nat
  g : Nat
  h : Nat
deriving Repr, DecidableEq

/-- SHA-256 initial hash value. -/
def initHash : Hash8 :=
  ⟨1779033703, 3144134277, 1013904242, 2773480762,
   1359893119, 2600822924, 528734635, 1541459225⟩

/-- The four big-endian bytes of one 32-bit word. -/
def word4 (x : Nat) : List Nat :=
  [x / 2 ^ 24 % 256, x / 2 ^ 16 % 256, x / 2 ^ 8 % 256, x % 256]

/-- The 32 digest bytes of a chaining state, big-endian per word. -/
def hashBytes (s : Hash8) : List Nat :=
  word4 s.a ++ word4 s.b ++ word4 s.c ++ word4 s.d ++
  word4 s.e ++ word4 s.f ++ word4 s.g ++ word4 s.h

/-- Combine 4 bytes big-endian into a word. -/
def word4Of (bs : List Nat) : Nat :=
  bs.foldl (fun acc b => acc * 256 + b % 256) 0

/-- Split a byte list into 32-bit big-endian words (4 bytes each). -/
def wordsOfBytes (fuel : Nat) (bs : List Nat) : List Nat :=
  match fuel, bs with
  | 0, _ => []
  | _, [] => []
  | fuel + 1, bs => word4Of (bs.take 4) :: wordsOfBytes fuel (bs.drop 4)

/-- SHA-256 message padding: append `0x80`, zero bytes to 56 mod 64, and the
64-bit big-endian bit length. -/
def sha256pad (msg : List Nat) : List Nat :=
  let len := msg.length
  let zeroCount := (64 + 56 - (len + 1) % 64) % 64
  let bitLen := len * 8
  msg ++ [0x80] ++ List.replicate zeroCount 0 ++
    [bitLen / 2 ^ 56 % 256, bitLen / 2 ^ 48 % 256, bitLen / 2 ^ 40 % 256,
     bitLen / 2 ^ 32 % 256, bitLen / 2 ^ 24 % 256, bitLen / 2 ^ 16 % 256,
     bitLen / 2 ^ 8 % 256, bitLen % 256]

/-- Extend the 16-word block to the 64-word message schedule. -/
def extendSchedule : List Nat → Nat → List Nat
  | ws, 0 => ws
  | ws, fuel + 1 =>
    let n := ws.length
    let s0term := ws.getD (n - 15) 0
    let s1term := ws.getD (n - 2) 0
    let s0 := bxor (bxor (rotr 7 s0term) (rotr 18 s0term)) (shr 3 s0term)
    let s1 := bxor (bxor (rotr 17 s1term) (rotr 19 s1term)) (shr 10 s1term)
    let next := w32 (ws.getD (n - 16) 0 + s0 + ws.getD (n - 7) 0 + s1)
    extendSchedule (ws ++ [next]) fuel

/-- One SHA-256 round. -/
def round256 (st : Hash8) (ki wi : Nat) : Hash8 :=
  let S1 := bxor (bxor (rotr 6 st.e) (rotr 11 st.e)) (rotr 25 st.e)
  let ch := bxor (band st.e st.f) (band (bnot32 st.e) st.g)
  let temp1 := w32 (st.h + S1 + ch + ki + wi)
  let S0 := bxor (bxor (rotr 2 st.a) (rotr 13 st.a)) (rotr 22 st.a)
  let maj := bxor (bxor (band st.a st.b) (band st.a st.c)) (band st.b st.c)
  let temp2 := w32 (S0 + maj)
  ⟨w32 (temp1 + temp2), st.a, st.b, st.c, w32 (st.d + temp1), st.e, st.f, st.g⟩

/-- Compress one 64-byte block into the chaining state. -/
def compress (st : Hash8) (block : List Nat) : Hash8 :=
  let ws := extendSchedule (wordsOfBytes 16 block) 48
  let fin := (K256.zip ws).foldl (fun s kw => round256 s kw.1 kw.2) st
  ⟨w32 (st.a + fin.a), w32 (st.b + fin.b), w32 (st.c + fin.c),
   w32 (st.d + fin.d), w32 (st.e + fin.e), w32 (st.f + fin.f),
   w32 (st.g + fin.g), w32 (st.h + fin.h)⟩

/-- Split a list into 64-byte chunks (fuel-driven, fuel = list length). -/
def chunks64Go : Nat → List Nat → List (List Nat)
  | 0, _ => []
  | _, [] => []
  | fuel + 1, bs => bs.take 64 :: chunks64Go fuel (bs.drop 64)

def chunks64 (bs : List Nat) : List (List Nat) := chunks64Go bs.length bs

/-- SHA-256 of a byte list; a 32-byte digest. -/
def sha256 (msg : List Nat) : List Nat :=
  hashBytes ((chunks64 (sha256pad msg)).foldl compress initHash)

/-! ## HMAC-SHA256 (as implemented by `crypto.createHmac('sha256', key)`) -/

/-- Normalize the HMAC key to the 64-byte block size. -/
def hmacKey (key : List Nat) : List Nat :=
  let k0 := if key.length > 64 then sha256 key else key
  k0 ++ List.replicate (64 - k0.length) 0

/-- HMAC-SHA256 over byte lists. -/
def hmacSha256 (key msg : List Nat) : List Nat :=
  let k := hmacKey key
  sha256 ((k.map (fun b => bxor b 0x5c)) ++
    sha256 ((k.map (fun b => bxor b 0x36)) ++ msg))

/-! ## Text encoding and hex -/

/-- UTF-8 bytes of a string (Node's `utf8` encoding). -/
def utf8Bytes (s : String) : List Nat :=
  s.toUTF8.toList.map (fun b => b.toNat)

/-- Lowercase hex digit. -/
def hexDigit (n : Nat) : Char :=
  if n < 10 then Char.ofNat (48 + n) else Char.ofNat (87 + n)

/-- Lowercase hex rendering of a byte list (`Buffer#digest('hex')`). -/
def bytesToHex (bs : List Nat) : String :=
  String.mk (bs.foldr (fun b acc => hexDigit (b / 16 % 16) :: hexDigit (b % 16) :: acc) [])

/-- `sha256Hex` from the source: hex SHA-256 of the UTF-8 bytes of a string. -/
def sha256Hex (content : String) : String :=
  bytesToHex (sha256 (utf8Bytes content))

/-- `hmac` from the source: HMAC-SHA256, string data, key as bytes. -/
def hmacBytes (key : List Nat) (data : String) : List Nat :=
  hmacSha256 key (utf8Bytes data)

/-- `getSignatureKey` from the source: the chained AWS SigV4 key derivation. -/
def getSignatureKey (secretKey dateStamp regionName serviceName : String) : List Nat :=
  let kDate := hmacBytes (utf8Bytes ("AWS4" ++ secretKey)) dateStamp
  let kRegion := hmacBytes kDate regionName
  let kService := hmacBytes kRegion serviceName
  hmacBytes kService "aws4_request"

/-! ## JSON (the fragment `JSON.stringify` produces on these records)

Optional string fields collapse `null`/`undefined` through `??`, so the
embedding models an absent optional field as `Option.none`; metadata values
are arbitrary JSON values. -/

inductive Json where
  | null : Json
  | bool : Bool → Json
  | num : Int → Json
  | str : String → Json
  | arr : List Json → Json
  | obj : List (String × Json) → Json
deriving Repr

/-- `JSON.stringify` escaping of one character. -/
def escChar (c : Char) : String :=
  if c = '"' then "\\\""
  else if c = '\\' then "\\\\"
  else if c = Char.ofNat 8 then "\\b"
  else if c = Char.ofNat 9 then "\\t"
  else if c = Char.ofNat 10 then "\\n"
  else if c = Char.ofNat 12 then "\\f"
  else if c = Char.ofNat 13 then "\\r"
  else if c.toNat < 32 then
    "\\u00" ++ String.mk [hexDigit (c.toNat / 16), hexDigit (c.toNat % 16)]
  else String.singleton c

/-- `JSON.stringify` rendering of a string literal. -/
def quoteStr (s : String) : String :=
  "\"" ++ String.join (s.data.map escChar) ++ "\""

mutual

/-- `JSON.stringify` (no spacing), object keys in insertion order. -/
def renderJson : Json → String
  | Json.null => "null"
  | Json.bool b => if b then "true" else "false"
  | Json.num n => toString n
  | Json.str s => quoteStr s
  | Json.arr xs => "[" ++ renderArr xs ++ "]"
  | Json.obj fs => "\x7b" ++ renderFields fs ++ "\x7d"

def renderArr : List Json → String
  | [] => ""
  | [x] => renderJson x
  | x :: y :: rest => renderJson x ++ "," ++ renderArr (y :: rest)

def renderFields : List (String × Json) → String
  | [] => ""
  | [kv] => quoteStr kv.1 ++ ":" ++ renderJson kv.2
  | kv :: kv2 :: rest =>
    quoteStr kv.1 ++ ":" ++ renderJson kv.2 ++ "," ++ renderFields (kv2 :: rest)

end

/-! ## Data model of the module -/

/-- `PersistedLog['type']`. -/
inductive LogType where
  | access : LogType
  | audit : LogType
deriving Repr, DecidableEq

def LogType.str : LogType → String
  | LogType.access => "access"
  | LogType.audit => "audit"

/-- `PersistedLog` with the payload as a JSON object (key insertion order). -/
structure PersistedLog where
  type : LogType
  occurredAt : String
  payload : List (String × Json)
deriving Repr

/-- `JSON.stringify(entry)` for a `PersistedLog` object literal. -/
def stringifyLog (e : PersistedLog) : String :=
  renderJson (Json.obj
    [("type", Json.str e.type.str),
     ("occurredAt", Json.str e.occurredAt),
     ("payload", Json.obj e.payload)])

/-- The module-level environment configuration: `Option` fields are the env
variables read with no default, the rest carry their defaults. -/
structure Config where
  bucket : Option String
  prefixStr : String
  sse : String
  storageClass : String
  region : String
  accessKeyId : Option String
  secretAccessKey : Option String
  sessionToken : Option String
  endpoint : Option String
deriving Repr, DecidableEq

/-- JavaScript falsiness of an optional string env value (`undefined` and the
empty string are falsy). -/
def falsy : Option String → Bool
  | none => true
  | some s => s = ""

/-- The observable effects of one call. -/
inductive Event where
  | consoleInfo : String → Event
  | consoleError : String → String → Event
  | netPut : String → List (String × String) → String → Event
deriving Repr, DecidableEq

def Event.isNetPut : Event → Bool
  | Event.netPut _ _ _ => true
  | _ => false

/-- Outcome of the single `fetch` call, supplied as an oracle: either the
transport throws, or a response with a status arrives. -/
inductive FetchOutcome where
  | throws : String → FetchOutcome
  | resp : Nat → String → String → FetchOutcome
deriving Repr, DecidableEq

/-- `Response.ok`: status in the 200–299 range. -/
def statusOk (status : Nat) : Bool := 200 ≤ status && status ≤ 299

/-! ## Helper computations of `putObjectToS3` -/

/-- `isoDate.replace(/[:-]|\..{3}/g, '')`: drop `:` and `-`, and drop a `.`
together with the following three characters when three remain. -/
def stripIsoGo : List Char → List Char
  | [] => []
  | c :: rest =>
    if c = ':' ∨ c = '-' then stripIsoGo rest
    else if c = '.' ∧ 3 ≤ rest.length then stripIsoGo (rest.drop 3)
    else c :: stripIsoGo rest
termination_by l => l.length
decreasing_by
  all_goals simp [List.length_drop]
  omega

def compactIso (s : String) : String := String.mk (stripIsoGo s.data)

/-- JavaScript whitespace for `String.prototype.trim`. -/
def isJsSpace (c : Char) : Bool :=
  c.toNat ∈ [9, 10, 11, 12, 13, 32, 0xa0, 0x2028, 0x2029, 0xfeff]

/-- `String.prototype.trim`: strip leading and trailing whitespace. -/
def trimStr (s : String) : String :=
  String.mk (((s.data.dropWhile isJsSpace).reverse.dropWhile isJsSpace).reverse)

/-- `Array.prototype.join(sep)`. -/
def joinSep (sep : String) : List String → String
  | [] => ""
  | [x] => x
  | x :: y :: rest => x ++ sep ++ joinSep sep (y :: rest)

/-- Characters `encodeURIComponent` leaves unescaped. -/
def uriUnreserved (c : Char) : Bool :=
  (65 ≤ c.toNat && c.toNat ≤ 90) || (97 ≤ c.toNat && c.toNat ≤ 122) ||
  (48 ≤ c.toNat && c.toNat ≤ 57) ||
  c.toNat ∈ [45, 95, 46, 33, 126, 42, 39, 40, 41]

/-- Percent-encode one byte, uppercase hex. -/
def pctByte (b : Nat) : List Char :=
  ['%', (hexDigit (b / 16 % 16)).toUpper, (hexDigit (b % 16)).toUpper]

/-- `encodeURIComponent`. -/
def encodeURIComponent (s : String) : String :=
  String.mk (s.data.foldr
    (fun c acc =>
      if uriUnreserved c then c :: acc
      else (utf8Bytes (String.singleton c)).foldr (fun b a => pctByte b ++ a) acc)
    [])

/-- `.replace(/%2F/g, '/')`, left-to-right. -/
def replace2F : List Char → List Char
  | '%' :: '2' :: 'F' :: rest => '/' :: replace2F rest
  | c :: rest => c :: replace2F rest
  | [] => []

/-- The canonical URI: `/` + encoded key with `%2F` restored to `/`. -/
def canonicalUriOf (key : String) : String :=
  String.mk ('/' :: replace2F (encodeURIComponent key).data)

/-- `occurredAt.slice(0, 10)`: the first `n` characters. -/
def takeChars (n : Nat) (s : String) : String := String.mk (s.data.take n)

/-- `buildLogKey` from the source (`randomUUID()` supplied as an argument). -/
def buildLogKey (prefixStr : String) (type : LogType) (occurredAt : String)
    (uuid : String) : String :=
  prefixStr ++ "/" ++ type.str ++ "/" ++ takeChars 10 occurredAt ++ "/" ++
    occurredAt ++ "-" ++ uuid ++ ".json"

/-- The request host: the trimmed endpoint override, else the virtual-hosted
S3 host. -/
def hostOf (cfg : Config) (bucket : String) : String :=
  match cfg.endpoint with
  | some e => trimStr e
  | none => bucket ++ ".s3." ++ cfg.region ++ ".amazonaws.com"

/-- The header map in insertion order (a `Map`, all keys distinct). -/
def headerList (cfg : Config) (host payloadHash isoDate : String) :
    List (String × String) :=
  [("content-type", "application/json"),
   ("host", host),
   ("x-amz-content-sha256", payloadHash),
   ("x-amz-date", isoDate),
   ("x-amz-server-side-encryption", cfg.sse),
   ("x-amz-storage-class", cfg.storageClass)] ++
  (match cfg.sessionToken with
   | some tok => if tok = "" then [] else [("x-amz-security-token", tok)]
   | none => [])

/-- Code-point lexicographic comparison of character lists. -/
def charListLe : List Char → List Char → Bool
  | [], _ => true
  | _ :: _, [] => false
  | a :: as, b :: bs =>
    if a < b then true else if b < a then false else charListLe as bs

/-- Header comparison used by `.sort(([a], [b]) => a.localeCompare(b))`
(code-point order; it agrees with `localeCompare` on these header names). -/
def headerLE (a b : String × String) : Prop :=
  charListLe a.1.data b.1.data = true

instance : DecidableRel headerLE := fun a b =>
  inferInstanceAs (Decidable (charListLe a.1.data b.1.data = true))

/-- Sort the header entries by name (a stable comparison sort). -/
def sortHeaders (hs : List (String × String)) : List (String × String) :=
  hs.insertionSort headerLE

/-- The canonical headers block before its trailing newline:
`name:trimmedValue` lines joined by newlines. -/
def canonicalHeadersOf (sorted : List (String × String)) : String :=
  joinSep "\n" (sorted.map (fun kv => kv.1 ++ ":" ++ trimStr kv.2))

/-- The signed-header list: names joined by `;`. -/
def signedHeadersOf (sorted : List (String × String)) : String :=
  joinSep ";" (sorted.map (fun kv => kv.1))

/-- The canonical request exactly as the source joins it. -/
def canonicalRequestOf (canonicalUri : String) (hs : List (String × String))
    (payloadHash : String) : String :=
  joinSep "\n"
    ["PUT", canonicalUri, "",
     canonicalHeadersOf (sortHeaders hs) ++ "\n",
     signedHeadersOf (sortHeaders hs),
     payloadHash]

/-- The credential scope. -/
def credentialScopeOf (dateStamp region : String) : String :=
  dateStamp ++ "/" ++ region ++ "/s3/aws4_request"

/-- The string to sign. -/
def stringToSignOf (isoDate credentialScope canonicalRequest : String) : String :=
  joinSep "\n"
    ["AWS4-HMAC-SHA256", isoDate, credentialScope, sha256Hex canonicalRequest]

/-- The hex signature. -/
def signatureOf (signingKey : List Nat) (stringToSign : String) : String :=
  bytesToHex (hmacBytes signingKey stringToSign)

/-- The `authorization` header value. -/
def authorizationOf (accessKeyId credentialScope signedHeaders signature : String) :
    String :=
  "AWS4-HMAC-SHA256 Credential=" ++ accessKeyId ++ "/" ++ credentialScope ++
    ", SignedHeaders=" ++ signedHeaders ++ ", Signature=" ++ signature

/-! ## The operations, with explicit event traces

`isoNow` is the ISO timestamp `new Date().toISOString()` observed inside
`putObjectToS3`; `fetchO` is the outcome of the `fetch`. The result pairs
the emitted events with `Except.ok` (normal return) or `Except.error`
(a thrown exception). -/

def notConfiguredMsg : String :=
  "[logging] Persistent store is not configured; falling back to console."

/-- The guard `!LOG_ARCHIVE_BUCKET || !AWS_ACCESS_KEY_ID || !AWS_SECRET_ACCESS_KEY`. -/
def configMissing (cfg : Config) : Bool :=
  falsy cfg.bucket || falsy cfg.accessKeyId || falsy cfg.secretAccessKey

/-- `putObjectToS3` from the source. -/
def putObjectToS3 (cfg : Config) (isoNow : String) (fetchO : FetchOutcome)
    (key body : String) : List Event × Except String Unit :=
  if configMissing cfg then
    ([Event.consoleInfo notConfiguredMsg, Event.consoleInfo body], Except.ok ())
  else
    let isoDate := compactIso isoNow
    let dateStamp := takeChars 8 isoDate
    let payloadHash := sha256Hex body
    let host := hostOf cfg (cfg.bucket.getD "")
    let canonicalUri := canonicalUriOf key
    let requestUrl := "https://" ++ host ++ canonicalUri
    let sorted := sortHeaders (headerList cfg host payloadHash isoDate)
    let canonicalRequest :=
      joinSep "\n"
        ["PUT", canonicalUri, "", canonicalHeadersOf sorted ++ "\n",
         signedHeadersOf sorted, payloadHash]
    let credentialScope := credentialScopeOf dateStamp cfg.region
    let stringToSign := stringToSignOf isoDate credentialScope canonicalRequest
    let signingKey :=
      getSignatureKey (cfg.secretAccessKey.getD "") dateStamp cfg.region "s3"
    let signature := signatureOf signingKey stringToSign
    let authorization :=
      authorizationOf (cfg.accessKeyId.getD "") credentialScope
        (signedHeadersOf sorted) signature
    let requestHeaders := sorted ++ [("authorization", authorization)]
    let putEvent := Event.netPut requestUrl requestHeaders body
    match fetchO with
    | FetchOutcome.throws msg => ([putEvent], Except.error msg)
    | FetchOutcome.resp status statusText respBody =>
      if statusOk status then ([putEvent], Except.ok ())
      else
        ([putEvent], Except.error
          ("Failed to upload log to S3 (" ++ toString status ++ " " ++
            statusText ++ "): " ++ respBody))

def serverOnlyMsg : String :=
  "Logging utilities are only available on the server runtime."

def fallbackMsg : String :=
  "Falling back to console log for observability."

/-- `persistLog` from the source; `hasWindow` is whether `window` is defined
(browser context), `uuid` the `randomUUID()` draw. -/
def persistLog (cfg : Config) (hasWindow : Bool) (isoNow : String)
    (fetchO : FetchOutcome) (uuid : String) (entry : PersistedLog) :
    List Event × Except String Unit :=
  if hasWindow then ([], Except.error serverOnlyMsg)
  else
    let body := stringifyLog entry
    match putObjectToS3 cfg isoNow fetchO
        (buildLogKey cfg.prefixStr entry.type entry.occurredAt uuid) body with
    | (evs, Except.ok ()) => (evs, Except.ok ())
    | (evs, Except.error e) =>
      (evs ++ [Event.consoleError "Failed to persist log entry" e,
               Event.consoleInfo fallbackMsg, Event.consoleInfo body],
       Except.ok ())

/-- `AccessLogInput`: optional fields are `none` when omitted, `undefined`
or `null`; metadata `none` when omitted or `undefined`. -/
structure AccessLogInput where
  actorId : Option String
  actorRole : Option String
  actorDepartment : Option String
  actorIp : Option String
  method : String
  resource : String
  statusCode : Int
  userAgent : Option String
  metadata : Option (List (String × Json))
deriving Repr

/-- `AuditLogInput`. -/
structure AuditLogInput where
  action : String
  actorId : Option String
  actorRole : Option String
  targetId : Option String
  description : Option String
  metadata : Option (List (String × Json))
deriving Repr

/-- `x ?? null` on an optional string field. -/
def optJson : Option String → Json
  | some s => Json.str s
  | none => Json.null

/-- The `logAccess` payload object, field insertion order as in the source. -/
def accessPayload (input : AccessLogInput) : List (String × Json) :=
  [("actorId", optJson input.actorId),
   ("actorRole", optJson input.actorRole),
   ("actorDepartment", optJson input.actorDepartment),
   ("actorIp", optJson input.actorIp),
   ("method", Json.str input.method),
   ("resource", Json.str input.resource),
   ("statusCode", Json.num input.statusCode),
   ("userAgent", optJson input.userAgent),
   ("metadata", Json.obj (input.metadata.getD []))]

/-- The `logAudit` payload object. -/
def auditPayload (input : AuditLogInput) : List (String × Json) :=
  [("action", Json.str input.action),
   ("actorId", optJson input.actorId),
   ("actorRole", optJson input.actorRole),
   ("targetId", optJson input.targetId),
   ("description", optJson input.description),
   ("metadata", Json.obj (input.metadata.getD []))]

/-- `logAccess`; `occurredAt` is the ISO timestamp drawn at entry. -/
def logAccess (cfg : Config) (hasWindow : Bool) (occurredAt isoNow : String)
    (fetchO : FetchOutcome) (uuid : String) (input : AccessLogInput) :
    List Event × Except String Unit :=
  persistLog cfg hasWindow isoNow fetchO uuid
    ⟨LogType.access, occurredAt, accessPayload input⟩

/-- `logAudit`. -/
def logAudit (cfg : Config) (hasWindow : Bool) (occurredAt isoNow : String)
    (fetchO : FetchOutcome) (uuid : String) (input : AuditLogInput) :
    List Event × Except String Unit :=
  persistLog cfg hasWindow isoNow fetchO uuid
    ⟨LogType.audit, occurredAt, auditPayload input⟩

/-- The failure detection on the `fetch` outcome: a transport exception or a
non-2xx status. -/
def fetchFailed : FetchOutcome → Bool
  | FetchOutcome.throws _ => true
  | FetchOutcome.resp st _ _ => !statusOk st

/-- An unconfigured environment: no bucket, no credentials. -/
def cfgUnset : Config :=
  ⟨none, "portal", "AES256", "STANDARD_IA", "us-east-1", none, none, none, none⟩

/-- A fully configured environment. -/
def cfgFull : Config :=
  ⟨some "bkt", "portal", "AES256", "STANDARD_IA", "us-east-1",
   some "AKIDEXAMPLE", some "seCrEtKey", none, none⟩

/-- The audit entry of the spec example
`logAudit(\x7baction: "user.create", actorId: "u1", targetId: "u2"\x7d)`. -/
def auditEntryEx : PersistedLog :=
  ⟨LogType.audit, "2026-10-12T00:00:00.000Z",
   auditPayload ⟨"user.create", some "u1", none, some "u2", none, none⟩⟩

/-! ## Named stages of the configured upload pipeline -/

/-- The request host used when configured. -/
def hostFull (cfg : Config) : String := hostOf cfg (cfg.bucket.getD "")

/-- The sorted header entries of the request. -/
def sortedHeadersFull (cfg : Config) (isoNow body : String) : List (String × String) :=
  sortHeaders (headerList cfg (hostFull cfg) (sha256Hex body) (compactIso isoNow))

/-- The canonical request of the upload. -/
def canonicalRequestFull (cfg : Config) (isoNow key body : String) : String :=
  canonicalRequestOf (canonicalUriOf key)
    (headerList cfg (hostFull cfg) (sha256Hex body) (compactIso isoNow))
    (sha256Hex body)

/-- The credential scope of the upload. -/
def credentialScopeFull (cfg : Config) (isoNow : String) : String :=
  credentialScopeOf (takeChars 8 (compactIso isoNow)) cfg.region

/-- The string to sign of the upload. -/
def stringToSignFull (cfg : Config) (isoNow key body : String) : String :=
  stringToSignOf (compactIso isoNow) (credentialScopeFull cfg isoNow)
    (canonicalRequestFull cfg isoNow key body)

/-- The signing key of the upload. -/
def signingKeyFull (cfg : Config) (isoNow : String) : List Nat :=
  getSignatureKey (cfg.secretAccessKey.getD "") (takeChars 8 (compactIso isoNow))
    cfg.region "s3"

/-- The hex signature of the upload. -/
def signatureFull (cfg : Config) (isoNow key body : String) : String :=
  signatureOf (signingKeyFull cfg isoNow) (stringToSignFull cfg isoNow key body)

/-- The `authorization` header value of the upload. -/
def authValue (cfg : Config) (isoNow key body : String) : String :=
  authorizationOf (cfg.accessKeyId.getD "") (credentialScopeFull cfg isoNow)
    (signedHeadersOf (sortedHeadersFull cfg isoNow body))
    (signatureFull cfg isoNow key body)

/-! ## Canonical request: spec-form rendering and order independence -/

/-- The `lowercase-name:trimmed-value` lines of the canonical headers block. -/
def canonLines (sorted : List (String × String)) : List String :=
  sorted.map (fun kv => kv.1 ++ ":" ++ trimStr kv.2)

/-- A block of lines, each newline-terminated, concatenated. -/
def newlineTerminated (lines : List String) : String :=
  lines.foldr (fun l acc => l ++ "\n" ++ acc) ""

/-- The canonical request as the spec words it: the newline-join of the
method, canonical URI, empty query string, canonical headers block (each
line newline-terminated), signed-header list, and payload hash. -/
def canonicalRequestSpec (uri : String) (sorted : List (String × String))
    (ph : String) : String :=
  joinSep "\n"
    ["PUT", uri, "", newlineTerminated (canonLines sorted),
     signedHeadersOf sorted, ph]

/-- Strict comparison on header names. -/
def headerLT (a b : String × String) : Prop := headerLE a b ∧ a.1 ≠ b.1

/-! ## Basic lemmas -/

theorem sha256_length (m : List Nat) : (sha256 m).length = 32 := rfl

theorem hmacSha256_length (k m : List Nat) : (hmacSha256 k m).length = 32 :=
  sha256_length _

/-- Cancel a common front and back around a middle segment of a string. -/
theorem append_middle_inj (front mid1 mid2 tail : String)
    (h : front ++ (mid1 ++ tail) = front ++ (mid2 ++ tail)) : mid1 = mid2 := by
  apply String.ext
  have hd := congrArg String.data h
  simp only [String.data_append] at hd
  exact List.append_cancel_right (List.append_cancel_left hd)

theorem persistLog_false_ok (cfg : Config) (isoNow : String) (fetchO : FetchOutcome)
    (uuid : String) (entry : PersistedLog) :
    (persistLog cfg false isoNow fetchO uuid entry).2 = Except.ok () := by
  rcases hp : putObjectToS3 cfg isoNow fetchO
      (buildLogKey cfg.prefixStr entry.type entry.occurredAt uuid)
      (stringifyLog entry) with ⟨evs, r⟩
  cases r with
  | ok u => cases u; simp [persistLog, hp]
  | error e => simp [persistLog, hp]

/-! ## Claim theorems -/

/-- C1: for every valid access/audit input and every storage configuration and
network outcome, `logAccess` and `logAudit` invoked in a server-side context
(`window` undefined) return normally: no exception crosses the facade. -/
theorem c1_facade_never_throws (cfg : Config) (occurredAt isoNow : String)
    (fetchO : FetchOutcome) (uuid : String) (a : AccessLogInput) (b : AuditLogInput) :
    (logAccess cfg false occurredAt isoNow fetchO uuid a).2 = Except.ok () ∧
    (logAudit cfg false occurredAt isoNow fetchO uuid b).2 = Except.ok () :=
  ⟨persistLog_false_ok cfg isoNow fetchO uuid _,
   persistLog_false_ok cfg isoNow fetchO uuid _⟩

/-- C5: the signing key is the four-stage chained HMAC-SHA256 starting from
`"AWS4" + secret`, its output is 32 bytes, and derivation is deterministic:
equal inputs give byte-identical output. -/
theorem c5_signature_key_chain (secret d r sv s2 d2 r2 sv2 : String)
    (h1 : secret = s2) (h2 : d = d2) (h3 : r = r2) (h4 : sv = sv2) :
    getSignatureKey secret d r sv =
      hmacSha256 (hmacSha256 (hmacSha256 (hmacSha256
        (utf8Bytes ("AWS4" ++ secret)) (utf8Bytes d)) (utf8Bytes r))
        (utf8Bytes sv)) (utf8Bytes "aws4_request") ∧
    (getSignatureKey secret d r sv).length = 32 ∧
    getSignatureKey secret d r sv = getSignatureKey s2 d2 r2 sv2 := by
  subst h1; subst h2; subst h3; subst h4
  exact ⟨rfl, sha256_length _, rfl⟩

theorem c5_signature_key_chain_witness :
    getSignatureKey "sEcr" "20261012" "us-east-1" "s3" =
      hmacSha256 (hmacSha256 (hmacSha256 (hmacSha256
        (utf8Bytes ("AWS4" ++ "sEcr")) (utf8Bytes "20261012")) (utf8Bytes "us-east-1"))
        (utf8Bytes "s3")) (utf8Bytes "aws4_request") ∧
    (getSignatureKey "sEcr" "20261012" "us-east-1" "s3").length = 32 ∧
    getSignatureKey "sEcr" "20261012" "us-east-1" "s3" =
      getSignatureKey "sEcr" "20261012" "us-east-1" "s3" :=
  c5_signature_key_chain "sEcr" "20261012" "us-east-1" "s3"
    "sEcr" "20261012" "us-east-1" "s3" rfl rfl rfl rfl

/-- C6: the object key is
`prefixStr/type/YYYY-MM-DD/occurredAt-uuid.json` with the date directory the
first 10 characters of the record timestamp, and keys built from distinct
random suffixes (same type and timestamp) are distinct. -/
theorem c6_log_key_format_unique (p : String) (t : LogType) (o u u1 u2 : String)
    (hne : u1 ≠ u2) :
    buildLogKey p t o u =
      p ++ "/" ++ t.str ++ "/" ++ takeChars 10 o ++ "/" ++ o ++ "-" ++ u ++ ".json" ∧
    buildLogKey p t o u1 ≠ buildLogKey p t o u2 := by
  refine ⟨rfl, fun h => hne ?_⟩
  have hd := congrArg String.data h
  simp only [buildLogKey, String.data_append, List.append_assoc] at hd
  have h1 := List.append_cancel_left hd
  have h2 := List.append_cancel_left h1
  have h3 := List.append_cancel_left h2
  have h4 := List.append_cancel_left h3
  have h5 := List.append_cancel_left h4
  have h6 := List.append_cancel_left h5
  have h7 := List.append_cancel_left h6
  have h8 := List.append_cancel_left h7
  exact String.ext (List.append_cancel_right h8)

theorem c6_log_key_format_unique_witness :
    ("u1x" : String) ≠ "u2x" ∧
    (buildLogKey "portal" LogType.audit "2026-10-12T00:00:00.000Z" "u0" =
      "portal" ++ "/" ++ LogType.audit.str ++ "/" ++
        takeChars 10 "2026-10-12T00:00:00.000Z" ++ "/" ++
        "2026-10-12T00:00:00.000Z" ++ "-" ++ "u0" ++ ".json" ∧
     buildLogKey "portal" LogType.audit "2026-10-12T00:00:00.000Z" "u1x" ≠
       buildLogKey "portal" LogType.audit "2026-10-12T00:00:00.000Z" "u2x") :=
  ⟨by decide,
   c6_log_key_format_unique "portal" LogType.audit "2026-10-12T00:00:00.000Z"
     "u0" "u1x" "u2x" (by decide)⟩

/-- C7: invoked from a browser-side context (`window` defined), `logAccess`
and `logAudit` throw the server-runtime error, emit nothing, and the error
propagates to the caller. -/
theorem c7_browser_context_throws (cfg : Config) (occurredAt isoNow : String)
    (fetchO : FetchOutcome) (uuid : String) (a : AccessLogInput) (b : AuditLogInput) :
    logAccess cfg true occurredAt isoNow fetchO uuid a =
      ([], Except.error serverOnlyMsg) ∧
    logAudit cfg true occurredAt isoNow fetchO uuid b =
      ([], Except.error serverOnlyMsg) :=
  ⟨rfl, rfl⟩

/-- C9: in a non-server context `persistLog` fails with the runtime-check
error before emitting any event, and its behaviour does not depend on the
entry at all (in particular the entry is never serialized). -/
theorem c9_runtime_check_precedes_effects (cfg : Config) (isoNow : String)
    (fetchO : FetchOutcome) (uuid : String) (e1 e2 : PersistedLog) :
    persistLog cfg true isoNow fetchO uuid e1 = ([], Except.error serverOnlyMsg) ∧
    persistLog cfg true isoNow fetchO uuid e1 = persistLog cfg true isoNow fetchO uuid e2 :=
  ⟨rfl, rfl⟩

theorem stringifyLog_head (e : PersistedLog) :
    (stringifyLog e).data.head? = some (Char.ofNat 123) := by
  unfold stringifyLog
  simp only [renderJson]
  rw [String.data_append, String.data_append]
  have hb : ("\x7b" : String).data = [Char.ofNat 123] := rfl
  rw [hb]
  rfl

theorem stringifyLog_ne_notConfiguredMsg (e : PersistedLog) :
    stringifyLog e ≠ notConfiguredMsg := by
  intro h
  have h1 := stringifyLog_head e
  rw [h] at h1
  exact absurd h1 (by decide)

theorem stringifyLog_ne_fallbackMsg (e : PersistedLog) :
    stringifyLog e ≠ fallbackMsg := by
  intro h
  have h1 := stringifyLog_head e
  rw [h] at h1
  exact absurd h1 (by decide)

/-- C2: whenever the archival path fails — store unconfigured, transport
exception, or non-2xx response — the call returns normally and the serialized
record is written exactly once to the console fallback sink; in the
unconfigured case the trace is exactly the two console writes and contains no
network request. -/
theorem c2_fallback_on_failure (cfg : Config) (isoNow : String)
    (fetchO : FetchOutcome) (uuid : String) (entry : PersistedLog)
    (hfail : configMissing cfg = true ∨ fetchFailed fetchO = true) :
    (persistLog cfg false isoNow fetchO uuid entry).2 = Except.ok () ∧
    ((persistLog cfg false isoNow fetchO uuid entry).1).count
        (Event.consoleInfo (stringifyLog entry)) = 1 ∧
    (configMissing cfg = true →
      (persistLog cfg false isoNow fetchO uuid entry).1 =
        [Event.consoleInfo notConfiguredMsg,
         Event.consoleInfo (stringifyLog entry)] ∧
      ((persistLog cfg false isoNow fetchO uuid entry).1).countP Event.isNetPut = 0) := by
  cases hc : configMissing cfg with
  | true =>
    have hne := stringifyLog_ne_notConfiguredMsg entry
    refine ⟨?_, ?_, fun _ => ⟨?_, ?_⟩⟩ <;>
      simp [persistLog, putObjectToS3, hc, List.count_cons, List.countP_cons,
        Event.isNetPut, hne, Ne.symm hne]
  | false =>
    have hff : fetchFailed fetchO = true := by
      rcases hfail with h | h
      · rw [hc] at h; exact absurd h (by decide)
      · exact h
    have hne := stringifyLog_ne_fallbackMsg entry
    cases fetchO with
    | throws m =>
      refine ⟨?_, ?_, fun h => absurd h (by decide)⟩
      · simp [persistLog, putObjectToS3, hc]
      · simp [persistLog, putObjectToS3, hc, List.count_cons, hne, Ne.symm hne]
    | resp st stx txt =>
      have hok : statusOk st = false := by
        cases hst : statusOk st
        · rfl
        · rw [fetchFailed, hst] at hff; exact absurd hff (by decide)
      refine ⟨?_, ?_, fun h => absurd h (by decide)⟩
      · simp [persistLog, putObjectToS3, hc, hok]
      · simp [persistLog, putObjectToS3, hc, hok, List.count_cons, hne, Ne.symm hne]

set_option maxRecDepth 4096 in
theorem c2_fallback_on_failure_witness :
    (configMissing cfgUnset = true ∨
      fetchFailed (FetchOutcome.throws "boom") = true) ∧
    ((persistLog cfgUnset false "2026-10-12T00:00:01.000Z"
        (FetchOutcome.throws "boom") "uid" auditEntryEx).2 = Except.ok () ∧
     ((persistLog cfgUnset false "2026-10-12T00:00:01.000Z"
        (FetchOutcome.throws "boom") "uid" auditEntryEx).1).count
        (Event.consoleInfo (stringifyLog auditEntryEx)) = 1 ∧
     (configMissing cfgUnset = true →
       (persistLog cfgUnset false "2026-10-12T00:00:01.000Z"
          (FetchOutcome.throws "boom") "uid" auditEntryEx).1 =
         [Event.consoleInfo notConfiguredMsg,
          Event.consoleInfo (stringifyLog auditEntryEx)] ∧
       ((persistLog cfgUnset false "2026-10-12T00:00:01.000Z"
          (FetchOutcome.throws "boom") "uid" auditEntryEx).1).countP
          Event.isNetPut = 0)) ∧
    List.IsInfix ("\"type\":\"audit\"").data (stringifyLog auditEntryEx).data ∧
    List.IsInfix ("\"action\":\"user.create\"").data (stringifyLog auditEntryEx).data :=
  ⟨Or.inl (by decide),
   c2_fallback_on_failure cfgUnset "2026-10-12T00:00:01.000Z"
     (FetchOutcome.throws "boom") "uid" auditEntryEx (Or.inl (by decide)),
   by decide, by decide⟩

/-- C8: every absent optional field is persisted as the canonical `null`
marker, and the metadata field always persists as a JSON object — the empty
object when metadata is absent or has zero entries, never `null` or missing. -/
theorem c8_payload_normalization (a a2 : AccessLogInput) (b b2 : AuditLogInput)
    (ha1 : a.actorId = none) (ha2 : a.actorRole = none)
    (ha3 : a.actorDepartment = none) (ha4 : a.actorIp = none)
    (ha5 : a.userAgent = none) (ha6 : a.metadata = none ∨ a.metadata = some [])
    (hb1 : b.actorId = none) (hb2 : b.actorRole = none) (hb3 : b.targetId = none)
    (hb4 : b.description = none) (hb5 : b.metadata = none ∨ b.metadata = some []) :
    accessPayload a =
      [("actorId", Json.null), ("actorRole", Json.null),
       ("actorDepartment", Json.null), ("actorIp", Json.null),
       ("method", Json.str a.method), ("resource", Json.str a.resource),
       ("statusCode", Json.num a.statusCode), ("userAgent", Json.null),
       ("metadata", Json.obj [])] ∧
    auditPayload b =
      [("action", Json.str b.action), ("actorId", Json.null),
       ("actorRole", Json.null), ("targetId", Json.null),
       ("description", Json.null), ("metadata", Json.obj [])] ∧
    (accessPayload a2).lookup "metadata" = some (Json.obj (a2.metadata.getD [])) ∧
    (auditPayload b2).lookup "metadata" = some (Json.obj (b2.metadata.getD [])) := by
  have hm : a.metadata.getD [] = [] := by rcases ha6 with h | h <;> simp [h]
  have hm2 : b.metadata.getD [] = [] := by rcases hb5 with h | h <;> simp [h]
  refine ⟨?_, ?_, ?_, ?_⟩
  · simp [accessPayload, optJson, ha1, ha2, ha3, ha4, ha5, hm]
  · simp [auditPayload, optJson, hb1, hb2, hb3, hb4, hm2]
  · simp [accessPayload, List.lookup]
  · simp [auditPayload, List.lookup]

theorem c8_payload_normalization_witness :
    accessPayload ⟨none, none, none, none, "GET", "/api/items", 200, none, none⟩ =
      [("actorId", Json.null), ("actorRole", Json.null),
       ("actorDepartment", Json.null), ("actorIp", Json.null),
       ("method", Json.str "GET"), ("resource", Json.str "/api/items"),
       ("statusCode", Json.num 200), ("userAgent", Json.null),
       ("metadata", Json.obj [])] ∧
    auditPayload ⟨"user.create", none, none, none, none, none⟩ =
      [("action", Json.str "user.create"), ("actorId", Json.null),
       ("actorRole", Json.null), ("targetId", Json.null),
       ("description", Json.null), ("metadata", Json.obj [])] ∧
    (accessPayload ⟨some "u1", none, none, none, "GET", "/", 200, none,
        some [("k", Json.num 1)]⟩).lookup "metadata" =
      some (Json.obj ((some [("k", Json.num 1)] : Option _).getD [])) ∧
    (auditPayload ⟨"a", none, none, none, none, some []⟩).lookup "metadata" =
      some (Json.obj ((some [] : Option (List (String × Json))).getD [])) := by
  have h := c8_payload_normalization
    ⟨none, none, none, none, "GET", "/api/items", 200, none, none⟩
    ⟨some "u1", none, none, none, "GET", "/", 200, none, some [("k", Json.num 1)]⟩
    ⟨"user.create", none, none, none, none, none⟩
    ⟨"a", none, none, none, none, some []⟩
    rfl rfl rfl rfl rfl (Or.inl rfl) rfl rfl rfl rfl (Or.inl rfl)
  exact ⟨h.1, h.2.1, h.2.2.1, h.2.2.2⟩

/-- When configured, the upload emits exactly one network PUT carrying the
sorted headers plus the `authorization` header, whatever the fetch outcome. -/
theorem putObjectToS3_configured_trace (cfg : Config) (isoNow : String)
    (fetchO : FetchOutcome) (key body : String)
    (hc : configMissing cfg = false) :
    (putObjectToS3 cfg isoNow fetchO key body).1 =
      [Event.netPut ("https://" ++ hostFull cfg ++ canonicalUriOf key)
        (sortedHeadersFull cfg isoNow body ++ [("authorization", authValue cfg isoNow key body)])
        body] := by
  cases fetchO with
  | throws m =>
    simp [putObjectToS3, hc, hostFull, sortedHeadersFull, authValue,
      authorizationOf, signatureFull, signingKeyFull, stringToSignFull,
      credentialScopeFull, canonicalRequestFull, canonicalRequestOf]
  | resp st stx txt =>
    cases hst : statusOk st <;>
      simp [putObjectToS3, hc, hst, hostFull, sortedHeadersFull, authValue,
        authorizationOf, signatureFull, signingKeyFull, stringToSignFull,
        credentialScopeFull, canonicalRequestFull, canonicalRequestOf]

/-- C4: the string to sign is the newline-join of the algorithm literal, the
compact UTC timestamp, the credential scope `date/region/s3/aws4_request`,
and the hex SHA-256 of the canonical request; the signature is the hex
HMAC-SHA256 of it under the signing key; the authorization header value has
exactly the `Credential=`/`SignedHeaders=`/`Signature=` format; and the whole
signing computation is a pure function of its inputs. -/
theorem c4_sigv4_signing (cfg cfg2 : Config) (isoNow isoNow2 key key2 body body2 : String)
    (fetchO : FetchOutcome) (d r : String)
    (hc : configMissing cfg = false)
    (h1 : cfg = cfg2) (h2 : isoNow = isoNow2) (h3 : key = key2) (h4 : body = body2) :
    (putObjectToS3 cfg isoNow fetchO key body).1 =
      [Event.netPut ("https://" ++ hostFull cfg ++ canonicalUriOf key)
        (sortedHeadersFull cfg isoNow body ++
          [("authorization", authValue cfg isoNow key body)]) body] ∧
    stringToSignFull cfg isoNow key body =
      "AWS4-HMAC-SHA256" ++ "\n" ++ compactIso isoNow ++ "\n" ++
        credentialScopeFull cfg isoNow ++ "\n" ++
        sha256Hex (canonicalRequestFull cfg isoNow key body) ∧
    credentialScopeOf d r = d ++ "/" ++ r ++ "/s3/aws4_request" ∧
    signatureFull cfg isoNow key body =
      bytesToHex (hmacSha256 (signingKeyFull cfg isoNow)
        (utf8Bytes (stringToSignFull cfg isoNow key body))) ∧
    authValue cfg isoNow key body =
      "AWS4-HMAC-SHA256 Credential=" ++ cfg.accessKeyId.getD "" ++ "/" ++
        credentialScopeFull cfg isoNow ++ ", SignedHeaders=" ++
        signedHeadersOf (sortedHeadersFull cfg isoNow body) ++ ", Signature=" ++
        signatureFull cfg isoNow key body ∧
    authValue cfg isoNow key body = authValue cfg2 isoNow2 key2 body2 := by
  subst h1; subst h2; subst h3; subst h4
  refine ⟨putObjectToS3_configured_trace cfg isoNow fetchO key body hc,
    ?_, rfl, rfl, rfl, rfl⟩
  simp [stringToSignFull, stringToSignOf, joinSep, String.append_assoc]

theorem c4_sigv4_signing_witness :
    configMissing cfgFull = false ∧
    ((putObjectToS3 cfgFull "2026-10-12T00:00:01.000Z" (FetchOutcome.resp 200 "OK" "")
        "portal/audit/k.json" "body").1 =
      [Event.netPut ("https://" ++ hostFull cfgFull ++ canonicalUriOf "portal/audit/k.json")
        (sortedHeadersFull cfgFull "2026-10-12T00:00:01.000Z" "body" ++
          [("authorization",
            authValue cfgFull "2026-10-12T00:00:01.000Z" "portal/audit/k.json" "body")])
        "body"] ∧
     stringToSignFull cfgFull "2026-10-12T00:00:01.000Z" "portal/audit/k.json" "body" =
      "AWS4-HMAC-SHA256" ++ "\n" ++ compactIso "2026-10-12T00:00:01.000Z" ++ "\n" ++
        credentialScopeFull cfgFull "2026-10-12T00:00:01.000Z" ++ "\n" ++
        sha256Hex (canonicalRequestFull cfgFull "2026-10-12T00:00:01.000Z"
          "portal/audit/k.json" "body") ∧
     credentialScopeOf "20261012" "us-east-1" =
      "20261012" ++ "/" ++ "us-east-1" ++ "/s3/aws4_request" ∧
     signatureFull cfgFull "2026-10-12T00:00:01.000Z" "portal/audit/k.json" "body" =
      bytesToHex (hmacSha256 (signingKeyFull cfgFull "2026-10-12T00:00:01.000Z")
        (utf8Bytes (stringToSignFull cfgFull "2026-10-12T00:00:01.000Z"
          "portal/audit/k.json" "body"))) ∧
     authValue cfgFull "2026-10-12T00:00:01.000Z" "portal/audit/k.json" "body" =
      "AWS4-HMAC-SHA256 Credential=" ++ cfgFull.accessKeyId.getD "" ++ "/" ++
        credentialScopeFull cfgFull "2026-10-12T00:00:01.000Z" ++ ", SignedHeaders=" ++
        signedHeadersOf (sortedHeadersFull cfgFull "2026-10-12T00:00:01.000Z" "body") ++
        ", Signature=" ++
        signatureFull cfgFull "2026-10-12T00:00:01.000Z" "portal/audit/k.json" "body" ∧
     authValue cfgFull "2026-10-12T00:00:01.000Z" "portal/audit/k.json" "body" =
      authValue cfgFull "2026-10-12T00:00:01.000Z" "portal/audit/k.json" "body") :=
  ⟨by decide,
   c4_sigv4_signing cfgFull cfgFull "2026-10-12T00:00:01.000Z" "2026-10-12T00:00:01.000Z"
     "portal/audit/k.json" "portal/audit/k.json" "body" "body"
     (FetchOutcome.resp 200 "OK" "") "20261012" "us-east-1"
     (by decide) rfl rfl rfl rfl⟩

/-- C10: the headers sent on the PUT are exactly the sorted signed header
entries — with the values that feed the canonical headers block — plus the
single `authorization` header; the SignedHeaders list is the semicolon-join
of exactly those header names. -/
theorem c10_request_headers_match_signed (cfg : Config) (isoNow : String)
    (fetchO : FetchOutcome) (key body : String)
    (hc : configMissing cfg = false) :
    (putObjectToS3 cfg isoNow fetchO key body).1 =
      [Event.netPut ("https://" ++ hostFull cfg ++ canonicalUriOf key)
        (sortedHeadersFull cfg isoNow body ++
          [("authorization", authValue cfg isoNow key body)]) body] ∧
    (sortedHeadersFull cfg isoNow body ++
        [("authorization", authValue cfg isoNow key body)]).map Prod.fst =
      (sortedHeadersFull cfg isoNow body).map Prod.fst ++ ["authorization"] ∧
    signedHeadersOf (sortedHeadersFull cfg isoNow body) =
      joinSep ";" ((sortedHeadersFull cfg isoNow body).map Prod.fst) ∧
    canonicalHeadersOf (sortedHeadersFull cfg isoNow body) =
      joinSep "\n" ((sortedHeadersFull cfg isoNow body).map
        (fun kv => kv.1 ++ ":" ++ trimStr kv.2)) := by
  refine ⟨putObjectToS3_configured_trace cfg isoNow fetchO key body hc, ?_, rfl, rfl⟩
  simp

theorem c10_request_headers_match_signed_witness :
    configMissing cfgFull = false ∧
    ((putObjectToS3 cfgFull "2026-10-12T00:00:02.000Z" (FetchOutcome.throws "down")
        "portal/access/k.json" "b2").1 =
      [Event.netPut ("https://" ++ hostFull cfgFull ++ canonicalUriOf "portal/access/k.json")
        (sortedHeadersFull cfgFull "2026-10-12T00:00:02.000Z" "b2" ++
          [("authorization",
            authValue cfgFull "2026-10-12T00:00:02.000Z" "portal/access/k.json" "b2")])
        "b2"] ∧
     (sortedHeadersFull cfgFull "2026-10-12T00:00:02.000Z" "b2" ++
        [("authorization",
          authValue cfgFull "2026-10-12T00:00:02.000Z" "portal/access/k.json" "b2")]).map
        Prod.fst =
      (sortedHeadersFull cfgFull "2026-10-12T00:00:02.000Z" "b2").map Prod.fst ++
        ["authorization"] ∧
     signedHeadersOf (sortedHeadersFull cfgFull "2026-10-12T00:00:02.000Z" "b2") =
      joinSep ";" ((sortedHeadersFull cfgFull "2026-10-12T00:00:02.000Z" "b2").map Prod.fst) ∧
     canonicalHeadersOf (sortedHeadersFull cfgFull "2026-10-12T00:00:02.000Z" "b2") =
      joinSep "\n" ((sortedHeadersFull cfgFull "2026-10-12T00:00:02.000Z" "b2").map
        (fun kv => kv.1 ++ ":" ++ trimStr kv.2))) :=
  ⟨by decide,
   c10_request_headers_match_signed cfgFull "2026-10-12T00:00:02.000Z"
     (FetchOutcome.throws "down") "portal/access/k.json" "b2" (by decide)⟩

theorem joinSep_newline_eq : ∀ (x : String) (rest : List String),
    joinSep "\n" (x :: rest) ++ "\n" = newlineTerminated (x :: rest)
  | x, [] => by simp [joinSep, newlineTerminated]
  | x, y :: rest => by
    have ih := joinSep_newline_eq y rest
    simp only [joinSep, newlineTerminated, List.foldr_cons] at ih ⊢
    rw [String.append_assoc, String.append_assoc, ih, ← String.append_assoc]

theorem charListLe_total : ∀ a b : List Char,
    charListLe a b = true ∨ charListLe b a = true
  | [], _ => Or.inl rfl
  | _ :: _, [] => Or.inr rfl
  | a :: as, b :: bs => by
    rcases lt_trichotomy a b with h | h | h
    · left; simp [charListLe, h]
    · subst h
      rcases charListLe_total as bs with ih | ih
      · left; simp [charListLe, lt_irrefl, ih]
      · right; simp [charListLe, lt_irrefl, ih]
    · right; simp [charListLe, h]

theorem charListLe_trans : ∀ a b c : List Char, charListLe a b = true →
    charListLe b c = true → charListLe a c = true
  | [], _, _ => fun _ _ => rfl
  | _ :: _, [], _ => fun h1 _ => absurd h1 (by simp [charListLe])
  | _ :: _, _ :: _, [] => fun _ h2 => absurd h2 (by simp [charListLe])
  | a :: as, b :: bs, c :: cs => by
    intro h1 h2
    rcases lt_trichotomy a b with hab | hab | hab
    · rcases lt_trichotomy b c with hbc | hbc | hbc
      · simp [charListLe, lt_trans hab hbc]
      · subst hbc; simp [charListLe, hab]
      · rw [charListLe, if_neg (lt_asymm hbc), if_pos hbc] at h2
        exact absurd h2 (by decide)
    · subst hab
      rw [charListLe, if_neg (lt_irrefl a), if_neg (lt_irrefl a)] at h1
      rcases lt_trichotomy a c with hbc | hbc | hbc
      · simp [charListLe, hbc]
      · subst hbc
        rw [charListLe, if_neg (lt_irrefl a), if_neg (lt_irrefl a)] at h2 ⊢
        exact charListLe_trans as bs cs h1 h2
      · rw [charListLe, if_neg (lt_asymm hbc), if_pos hbc] at h2
        exact absurd h2 (by decide)
    · rw [charListLe, if_neg (lt_asymm hab), if_pos hab] at h1
      exact absurd h1 (by decide)

theorem charListLe_antisymm : ∀ a b : List Char, charListLe a b = true →
    charListLe b a = true → a = b
  | [], [] => fun _ _ => rfl
  | [], _ :: _ => fun _ h2 => absurd h2 (by simp [charListLe])
  | _ :: _, [] => fun h1 _ => absurd h1 (by simp [charListLe])
  | a :: as, b :: bs => by
    intro h1 h2
    rcases lt_trichotomy a b with hab | hab | hab
    · rw [charListLe, if_neg (lt_asymm hab), if_pos hab] at h2
      exact absurd h2 (by decide)
    · subst hab
      rw [charListLe, if_neg (lt_irrefl a), if_neg (lt_irrefl a)] at h1 h2
      rw [charListLe_antisymm as bs h1 h2]
    · rw [charListLe, if_neg (lt_asymm hab), if_pos hab] at h1
      exact absurd h1 (by decide)

instance : IsTotal (String × String) headerLE :=
  ⟨fun a b => charListLe_total a.1.data b.1.data⟩

instance : IsTrans (String × String) headerLE :=
  ⟨fun _ _ _ h1 h2 => charListLe_trans _ _ _ h1 h2⟩

instance : IsAntisymm (String × String) headerLT :=
  ⟨fun _ _ h1 h2 =>
    absurd (String.ext (charListLe_antisymm _ _ h1.1 h2.1)) h1.2⟩

theorem sortHeaders_strict_sorted (hs : List (String × String))
    (hnd : (hs.map Prod.fst).Nodup) :
    List.Sorted headerLT (sortHeaders hs) := by
  have s1 : List.Sorted headerLE (sortHeaders hs) :=
    List.sorted_insertionSort headerLE hs
  have nd1 : ((sortHeaders hs).map Prod.fst).Nodup :=
    (((List.perm_insertionSort headerLE hs).map Prod.fst).nodup_iff).2 hnd
  have hne : List.Pairwise (fun a b : String × String => a.1 ≠ b.1) (sortHeaders hs) :=
    List.pairwise_map.mp nd1
  exact (s1.and hne).imp (fun h => h)

theorem sortHeaders_perm_invariant (hs hs' : List (String × String))
    (hperm : hs.Perm hs') (hnd : (hs.map Prod.fst).Nodup) :
    sortHeaders hs = sortHeaders hs' := by
  have hnd' : (hs'.map Prod.fst).Nodup := ((hperm.map Prod.fst).nodup_iff).1 hnd
  have p : (sortHeaders hs).Perm (sortHeaders hs') :=
    ((List.perm_insertionSort headerLE hs).trans hperm).trans
      (List.perm_insertionSort headerLE hs').symm
  exact List.eq_of_perm_of_sorted p
    (sortHeaders_strict_sorted hs hnd) (sortHeaders_strict_sorted hs' hnd')

/-- C3: the canonical request is the fixed-order newline-join of the method
`PUT`, the canonical URI, the empty query string, the canonical headers
block (`name:trimmedValue` lines sorted by header name, each
newline-terminated), the semicolon-joined signed-header names in the same
order, and the payload hash; and its value does not depend on the insertion
order of the header map. -/
theorem c3_canonical_request (uri ph : String) (hs hs' : List (String × String))
    (hne : hs ≠ []) (hnd : (hs.map Prod.fst).Nodup) (hperm : hs.Perm hs') :
    canonicalRequestOf uri hs ph = canonicalRequestSpec uri (sortHeaders hs) ph ∧
    List.Sorted (fun a b : String => charListLe a.data b.data = true)
      ((sortHeaders hs).map Prod.fst) ∧
    canonicalRequestOf uri hs ph = canonicalRequestOf uri hs' ph := by
  refine ⟨?_, ?_, ?_⟩
  · have hsn : sortHeaders hs ≠ [] := by
      intro h0
      exact hne (List.Perm.eq_nil ((List.perm_insertionSort headerLE hs).symm.trans
        (h0 ▸ List.Perm.refl _)))
    rcases hcl : canonLines (sortHeaders hs) with _ | ⟨x, rest⟩
    · exact absurd (List.map_eq_nil_iff.mp hcl) hsn
    · have hx : canonicalHeadersOf (sortHeaders hs) ++ "\n" =
          newlineTerminated (canonLines (sortHeaders hs)) := by
        show joinSep "\n" (canonLines (sortHeaders hs)) ++ "\n" = _
        rw [hcl]
        exact joinSep_newline_eq x rest
      unfold canonicalRequestOf canonicalRequestSpec
      rw [← hx]
  · exact List.pairwise_map.mpr ((List.sorted_insertionSort headerLE hs).imp
      (fun h => h))
  · unfold canonicalRequestOf
    rw [sortHeaders_perm_invariant hs hs' hperm hnd]

theorem c3_canonical_request_witness :
    (([("x-amz-date", "d"), ("host", "h"), ("x-amz-content-sha256", "p")] :
        List (String × String)) ≠ [] ∧
     (([("x-amz-date", "d"), ("host", "h"), ("x-amz-content-sha256", "p")] :
        List (String × String)).map Prod.fst).Nodup ∧
     ([("x-amz-date", "d"), ("host", "h"), ("x-amz-content-sha256", "p")] :
        List (String × String)).Perm
       [("host", "h"), ("x-amz-content-sha256", "p"), ("x-amz-date", "d")] ∧
     (sortHeaders [("x-amz-date", "d"), ("host", "h"),
        ("x-amz-content-sha256", "p")]).map Prod.fst =
       ["host", "x-amz-content-sha256", "x-amz-date"]) ∧
    (canonicalRequestOf "/u" [("x-amz-date", "d"), ("host", "h"),
        ("x-amz-content-sha256", "p")] "ph" =
      canonicalRequestSpec "/u" (sortHeaders [("x-amz-date", "d"), ("host", "h"),
        ("x-amz-content-sha256", "p")]) "ph" ∧
     List.Sorted (fun a b : String => charListLe a.data b.data = true)
       ((sortHeaders [("x-amz-date", "d"), ("host", "h"),
          ("x-amz-content-sha256", "p")]).map Prod.fst) ∧
     canonicalRequestOf "/u" [("x-amz-date", "d"), ("host", "h"),
        ("x-amz-content-sha256", "p")] "ph" =
      canonicalRequestOf "/u" [("host", "h"), ("x-amz-content-sha256", "p"),
        ("x-amz-date", "d")] "ph") :=
  ⟨⟨by decide, by decide, by decide, by decide⟩,
   c3_canonical_request "/u" "ph"
     [("x-amz-date", "d"), ("host", "h"), ("x-amz-content-sha256", "p")]
     [("host", "h"), ("x-amz-content-sha256", "p"), ("x-amz-date", "d")]
     (by decide) (by decide) (by decide)⟩

end Logging
